import Mathlib

/-!
Verification of the comic-manifest worker (`src/index.ts`, `schema.sql`).

The development shallowly embeds the TypeScript source: JSON values become an
inductive `Json` (numbers are modelled as `Int`; JSON.parse can never produce
NaN or infinities, and every numeric literal relevant to the spec is an
integer), JavaScript property access becomes `getMember`, thrown exceptions
become `Except`/`Option`, the D1 tables become lists of rows, and the external
collaborators (HMAC-SHA-256 via WebCrypto, base64/JSON decoding via
atob/JSON.parse, the upstream HTTP fetch) become function parameters of the
handlers that use them.
-/

/-- JSON values as produced by `JSON.parse`/`await resp.json()`.  Object
fields are listed in order with unique keys (the post-parse JavaScript
object). -/
inductive Json where
  | null : Json
  | bool (b : Bool) : Json
  | num (n : Int) : Json
  | str (s : String) : Json
  | arr (elems : List Json) : Json
  | obj (fields : List (String × Json)) : Json
deriving Repr

/-- First field with the given key (keys are unique post-parse, so first =
only). -/
def lookupField : List (String × Json) → String → Option Json
  | [], _ => none
  | (k, v) :: rest, key => if k = key then some v else lookupField rest key

/-- JavaScript property access `x.k` / `x?.k`: a present object member, and
`undefined` (here `none`) on anything that is not an object with that key. -/
def getMember (j : Json) (key : String) : Option Json :=
  match j with
  | .obj fields => lookupField fields key
  | _ => none

/-- JavaScript truthiness of a JSON value. -/
def truthy (j : Json) : Bool :=
  match j with
  | .null => false
  | .bool b => b
  | .num n => n != 0
  | .str s => s != ""
  | .arr _ => true
  | .obj _ => true

/-- Whether `typeof j === "object"` (true for objects, arrays and null). -/
def typeofObject (j : Json) : Bool :=
  match j with
  | .null => true
  | .arr _ => true
  | .obj _ => true
  | _ => false

/-- JavaScript `String.prototype.trim`: strip leading and trailing
whitespace (on the ASCII whitespace both notions agree). -/
def trimJS (s : String) : String :=
  ⟨((s.data.dropWhile Char.isWhitespace).reverse.dropWhile Char.isWhitespace).reverse⟩

/-- Models the idiom `(typeof x === "string" && x.trim())` used throughout
`index.ts`: yields the trimmed string when `x` is a string whose trim is
non-empty (a truthy value), and nothing otherwise. -/
def truthyTrimmedString (j : Option Json) : Option String :=
  match j with
  | some (.str s) => if trimJS s = "" then none else some (trimJS s)
  | _ => none

/-- Title resolution of `validateManifest` (index.ts lines 50-58): prefer
`manifest?.issue?.title`, fall back to legacy top-level `title`, both via the
truthy-trimmed-string idiom. -/
def resolveTitle (m : Json) : Option String :=
  truthyTrimmedString ((getMember m "issue").bind (fun i => getMember i "title"))
    <|> truthyTrimmedString (getMember m "title")

/-- Slug resolution of `validateManifest` (index.ts lines 51-62): prefer
`manifest?.issue?.slug`, fall back to legacy top-level `slug`. -/
def resolveSlug (m : Json) : Option String :=
  truthyTrimmedString ((getMember m "issue").bind (fun i => getMember i "slug"))
    <|> truthyTrimmedString (getMember m "slug")

/-- Per-page validation, body of the loop in `validateManifest`
(index.ts lines 68-79); `i` is the page index used in error messages. -/
def validatePage (i : Nat) (p : Json) : Except String Unit :=
  if !(truthy p && typeofObject p) then
    .error ("pages[" ++ (toString i ++ "] must be an object"))
  else
    match truthyTrimmedString (getMember p "id") with
    | none => .error ("pages[" ++ (toString i ++ "].id required"))
    | some _ =>
    match truthyTrimmedString (getMember p "alt") with
    | none => .error ("pages[" ++ (toString i ++ "].alt required"))
    | some _ =>
    match getMember p "image" with
    | some img =>
      if !(truthy img && typeofObject img) then
        .error ("pages[" ++ (toString i ++ "].image required"))
      else
        match truthyTrimmedString (getMember img "r2Key") with
        | none => .error ("pages[" ++ (toString i ++ "].image.r2Key required"))
        | some _ =>
        match getMember p "pageNumber" with
        | none => .ok ()
        | some (.num _) => .ok ()
        | some _ => .error ("pages[" ++ (toString i ++ "].pageNumber must be a number if provided"))
    | none => .error ("pages[" ++ (toString i ++ "].image required"))

/-- The `for (const [i, p] of manifest.pages.entries())` loop of
`validateManifest`, stopping at the first failing page. -/
def validatePages (i : Nat) : List Json → Except String Unit
  | [] => .ok ()
  | p :: rest =>
    match validatePage i p with
    | .error e => .error e
    | .ok _ => validatePages (i + 1) rest

/-- Whether `manifest.schemaVersion === 1` (strict equality, no coercion):
true exactly on the JSON number `1`. -/
def schemaVersionOk (j : Option Json) : Bool :=
  match j with
  | some (.num n) => n == 1
  | _ => false

/-- `validateManifest` (index.ts lines 46-80): succeeds exactly when the code
returns without throwing; errors carry the thrown message. -/
def validateManifest (m : Json) : Except String Unit :=
  if !(truthy m && typeofObject m) then .error "Manifest must be an object"
  else if !schemaVersionOk (getMember m "schemaVersion") then
    .error "schemaVersion must be 1"
  else
    match resolveTitle m with
    | none => .error "issue.title (or top-level title) required"
    | some _ =>
      match resolveSlug m with
      | none => .error "issue.slug (or top-level slug) required"
      | some _ =>
        match getMember m "pages" with
        | some (.arr ps) => validatePages 0 ps
        | _ => .error "pages must be an array"

/-- Predicate of the `find` in `pickPage` (index.ts line 84):
`typeof p?.pageNumber === "number" && p.pageNumber === pageNumber`. -/
def pageNumberMatches (pageNumber : Int) (p : Json) : Bool :=
  match getMember p "pageNumber" with
  | some (.num k) => k == pageNumber
  | _ => false

/-- `pickPage` (index.ts lines 82-87): first page with an explicit numeric
`pageNumber` equal to the request, else the element at position
`pageNumber - 1`, else not found (`none` models the returned `null`; a
literal `null` array element coalesces to the same `null`, and a negative
index reads an absent property). -/
def pickPage (m : Json) (pageNumber : Int) : Option Json :=
  if !truthy m then none
  else
    match getMember m "pages" with
    | some (.arr ps) =>
      match ps.find? (pageNumberMatches pageNumber) with
      | some p => some p
      | none =>
        if 1 ≤ pageNumber then
          match ps.get? (pageNumber - 1).toNat with
          | some .null => none
          | v => v
        else none
    | _ => none

/-- `timingSafeEqualHex` (index.ts lines 136-141): length check, then a
fixed-length accumulation of XOR differences over the characters. -/
def timingSafeEqualHex (a b : String) : Bool :=
  if a.length ≠ b.length then false
  else
    ((a.data.zip b.data).foldl (fun out p => out ||| (p.1.toNat ^^^ p.2.toNat)) 0) == 0

/-- JavaScript `parseInt(s, 10)`: skip leading whitespace, optional sign,
then the longest prefix of decimal digits; `none` models `NaN`. -/
def parseIntDigits (acc : Nat) (started : Bool) : List Char → Option Nat
  | [] => if started then some acc else none
  | c :: rest =>
    if c.isDigit then parseIntDigits (acc * 10 + (c.toNat - '0'.toNat)) true rest
    else if started then some acc else none

/-- Sign-and-digits part of `parseInt` after whitespace has been skipped. -/
def parseIntSigned (cs : List Char) : Option Int :=
  match cs with
  | '-' :: rest => (parseIntDigits 0 false rest).map (fun n => -(n : Int))
  | '+' :: rest => (parseIntDigits 0 false rest).map (fun n => (n : Int))
  | _ => (parseIntDigits 0 false cs).map (fun n => (n : Int))

/-- `parseInt(s, 10)` on the whole string. -/
def parseIntJS (s : String) : Option Int :=
  parseIntSigned (s.data.dropWhile Char.isWhitespace)

/-- Page-number computation of the reader route (index.ts line 428):
`Math.max(1, parseInt(url.searchParams.get("page") || "1", 10))`, with
`none` for an absent query parameter and `none` in the result for `NaN`. -/
def readerPageNumber (param : Option String) : Option Int :=
  match parseIntJS (match param with
    | none => "1"
    | some p => if p = "" then "1" else p) with
  | none => none
  | some k => some (max 1 k)

/-! ## The comics cache (schema.sql `comics`, index.ts lines 395-408) -/

/-- One row of the `comics` table (schema.sql lines 20-31). -/
structure ComicRow where
  id : String
  repoId : String
  slug : String
  title : String
  status : String
  cachedManifestJson : String
  cachedAt : String
  updatedAt : String
deriving Repr, DecidableEq

/-- Deterministic row id `comic_${repoRow.id}_${slug}` (index.ts line 399). -/
def mkComicId (repoId slug : String) : String :=
  "comic_" ++ repoId ++ "_" ++ slug

/-- Whether a row has the upsert key `(repo_id, slug)`. -/
def comicKey (repoId slug : String) (r : ComicRow) : Bool :=
  r.repoId == repoId && r.slug == slug

/-- `INSERT OR IGNORE INTO comics ...` (index.ts lines 395-400): the insert
is skipped when it would violate the `id` primary key or the
`UNIQUE(repo_id, slug)` constraint. -/
def insertOrIgnoreComics (t : List ComicRow) (row : ComicRow) : List ComicRow :=
  if t.any (fun x => x.id == row.id || comicKey row.repoId row.slug x) then t
  else t ++ [row]

/-- `UPDATE comics SET title = ?, cached_manifest_json = ?, cached_at = ...,
updated_at = ... WHERE repo_id = ? AND slug = ?` (index.ts lines 402-408). -/
def updateComics (t : List ComicRow) (repoId slug title manifest now : String) :
    List ComicRow :=
  t.map (fun x =>
    if comicKey repoId slug x then
      { x with title := title, cachedManifestJson := manifest,
               cachedAt := now, updatedAt := now }
    else x)

/-- The row bound to the INSERT OR IGNORE (index.ts line 399): deterministic
id, the given key, title and serialized manifest, status `'draft'`. -/
def freshComicRow (repoId slug title manifest now : String) : ComicRow :=
  { id := mkComicId repoId slug, repoId := repoId, slug := slug,
    title := title, status := "draft", cachedManifestJson := manifest,
    cachedAt := now, updatedAt := now }

/-- The cache upsert of the refresh handler: INSERT OR IGNORE followed by the
unconditional UPDATE, issued within one request (`now` is the request's
`datetime('now')`). -/
def cacheUpsert (t : List ComicRow) (repoId slug title manifest now : String) :
    List ComicRow :=
  updateComics (insertOrIgnoreComics t (freshComicRow repoId slug title manifest now))
    repoId slug title manifest now

/-! ## Sessions and `requireUser` (index.ts lines 143-158) -/

/-- One row of the `sessions` table. -/
structure SessionRow where
  id : String
  userId : String
  expiresAt : String
deriving Repr, DecidableEq

/-- One row of the `users` table (the columns `requireUser` selects). -/
structure UserRow where
  id : String
  githubLogin : String
deriving Repr, DecidableEq

/-- Lexicographic order on character lists by code point: the SQLite BINARY
collation used to compare the TEXT timestamps (they are ASCII, where byte
order and code-point order agree). -/
def charListLt : List Char → List Char → Bool
  | [], [] => false
  | [], _ :: _ => true
  | _ :: _, [] => false
  | a :: as, b :: bs =>
    if a.toNat < b.toNat then true
    else if b.toNat < a.toNat then false
    else charListLt as bs

/-- SQLite TEXT comparison `a < b` under BINARY collation. -/
def sqliteTextLt (a b : String) : Bool :=
  charListLt a.data b.data

/-- The SELECT of `requireUser`: first sessions-users join result with
`s.id = sid AND s.expires_at > now` (`now` stands for `datetime('now')`). -/
def sessionLookup (sessions : List SessionRow) (users : List UserRow)
    (sid now : String) : Option UserRow :=
  (sessions.filterMap (fun s =>
    if s.id == sid && sqliteTextLt now s.expiresAt then
      users.find? (fun u => u.id == s.userId)
    else none)).head?

/-- `requireUser` (index.ts lines 143-158): no `sid` cookie means anonymous;
otherwise the session lookup's row, or anonymous when it yields nothing. -/
def requireUser (sessions : List SessionRow) (users : List UserRow)
    (now : String) (sidCookie : Option String) : Option UserRow :=
  match sidCookie with
  | none => none
  | some sid => sessionLookup sessions users sid now

/-! ## OAuth callback state verification (index.ts lines 228-242)

The platform collaborators are parameters: `hmac` stands for
`hmacHex(env.SESSION_SECRET, ·)`, `parseB64` for `b64json` (lines 122-125,
`none` models a thrown decode error), `stringify` for `JSON.stringify`. -/

/-- Outcome of the callback handler up to the end of state verification.
`proceed` is the unique outcome from which the handler goes on to the token
exchange, the user upsert and the session insert (lines 244-316); every
other outcome returns (or throws) before any of those. -/
inductive CallbackOutcome where
  | response (status : Nat) (body : String)
  | exception
  | proceed (payload : Json)
deriving Repr

/-- Whether the callback outcome reaches the token exchange / user upsert /
session creation part of the handler. -/
def callbackReachesExchange (o : CallbackOutcome) : Bool :=
  match o with
  | .proceed _ => true
  | _ => false

/-- Split a character list at every occurrence of `sep`, JavaScript
`String.prototype.split` style (`"" → [""]`, adjacent separators give empty
pieces). -/
def splitOnChar (sep : Char) : List Char → List (List Char)
  | [] => [[]]
  | c :: rest =>
    if c = sep then [] :: splitOnChar sep rest
    else
      match splitOnChar sep rest with
      | [] => [[c]]
      | h :: t => (c :: h) :: t

/-- JavaScript `cookie.split(".")`; the handler keeps only the first two
pieces (`split(".", 2)`). -/
def jsSplitDot (c : String) : List String :=
  (splitOnChar '.' c.data).map (fun l => ⟨l⟩)

/-- State-verification part of `GET /auth/github/callback` (lines 228-242):
missing code/state, missing cookie, malformed cookie, signature mismatch and
nonce mismatch checks, in source order.  `b64json` throwing (`parseB64`
returning `none`) is an uncaught exception. -/
def callbackVerify (hmac : String → String) (parseB64 : String → Option Json)
    (stringify : Json → String) (code stateQ : String)
    (stateCookie : Option String) : CallbackOutcome :=
  if code = "" || stateQ = "" then .response 400 "Bad request"
  else
    match stateCookie with
    | none => .response 400 "Missing state"
    | some c =>
      if c = "" then .response 400 "Missing state"
      else
        let parts := jsSplitDot c
        let payloadB64 := (parts.get? 0).getD ""
        let sig := (parts.get? 1).getD ""
        if payloadB64 = "" || sig = "" then .response 400 "Invalid state"
        else
          match parseB64 payloadB64 with
          | none => .exception
          | some payload =>
            if !timingSafeEqualHex sig (hmac (stringify payload)) then
              .response 400 "Invalid state"
            else
              match getMember payload "state" with
              | some (.str s) =>
                if s = stateQ then .proceed payload else .response 400 "State mismatch"
              | _ => .response 400 "State mismatch"

/-- Claim C2 as stated: any callback whose cookie splits into
payload.signature with the signature unequal to the keyed hash of the
payload is answered with the 400 invalid-state response, regardless of
payload validity. -/
def signatureMismatchAlways400 : Prop :=
  ∀ (hmac : String → String) (parseB64 : String → Option Json)
    (stringify : Json → String) (code stateQ p s : String),
    code ≠ "" → stateQ ≠ "" → p ≠ "" → s ≠ "" →
    (jsSplitDot (p ++ "." ++ s)).get? 0 = some p →
    (jsSplitDot (p ++ "." ++ s)).get? 1 = some s →
    s ≠ hmac p →
    callbackVerify hmac parseB64 stringify code stateQ (some (p ++ "." ++ s)) =
      .response 400 "Invalid state"

/-! ## The refresh pipeline (index.ts lines 333-419)

`fetch` maps the constructed raw URL to the upstream outcome; database reads
and writes are recorded as an effect trace in source order. -/

/-- One row of the `repos` table (schema.sql lines 8-18). -/
structure RepoRow where
  id : String
  userId : String
  githubOwner : String
  githubRepo : String
  branch : String
  manifestPath : String
deriving Repr, DecidableEq

/-- Outcome of the upstream manifest fetch: non-success status, success with
a non-JSON body, or success with a parsed JSON body. -/
inductive FetchOutcome where
  | notOk (status : Nat)
  | okNotJson
  | okJson (j : Json)

/-- Externally visible steps of the refresh handler, in source order. -/
inductive RefreshEffect where
  | repoLookup (owner repo : String)
  | manifestFetch (url : String)
  | comicsInsert (id repoId slug title : String) (manifest : Json)
  | comicsUpdate (repoId slug title : String) (manifest : Json)

/-- Whether an effect writes the comics cache. -/
def isCacheWrite (e : RefreshEffect) : Bool :=
  match e with
  | .comicsInsert .. => true
  | .comicsUpdate .. => true
  | _ => false

/-- Whether an effect is the upstream manifest fetch. -/
def isManifestFetch (e : RefreshEffect) : Bool :=
  match e with
  | .manifestFetch _ => true
  | _ => false

/-- Responses of `POST /api/github/refresh`. -/
inductive RefreshResp where
  | unauthorized
  | badRequest (msg : String)
  | repoNotRegistered
  | fetchFailed (status : Nat) (url : String)
  | manifestNotJson (url : String)
  | validationFailed (msg : String)
  | exception
  | success (owner repo branch manifestPath rawUrl slug title : String)

/-- HTTP status of each refresh response. -/
def refreshStatus : RefreshResp → Nat
  | .unauthorized => 401
  | .badRequest _ => 400
  | .repoNotRegistered => 404
  | .fetchFailed _ _ => 502
  | .manifestNotJson _ => 502
  | .validationFailed _ => 422
  | .exception => 500
  | .success .. => 200

/-- `assertString` (index.ts lines 28-31) applied to a JSON member. -/
def assertStringJson (x : Option Json) (name : String) : Except String String :=
  match x with
  | some (.str s) => if trimJS s = "" then .error ("Invalid " ++ name) else .ok (trimJS s)
  | _ => .error ("Invalid " ++ name)

/-- The raw-manifest URL construction (index.ts line 362). -/
def mkRawUrl (owner repo branch path : String) : String :=
  "https://raw.githubusercontent.com/" ++ owner ++ "/" ++ repo ++ "/" ++ branch ++ "/" ++ path

/-- `manifestTitle` of the refresh handler (lines 382-385): same resolution
as the validator, defaulting to the empty string. -/
def handlerManifestTitle (m : Json) : String :=
  (resolveTitle m).getD ""

/-- `manifestSlug` of the refresh handler (lines 387-390). -/
def handlerManifestSlug (m : Json) : String :=
  (resolveSlug m).getD ""

/-- `const slug = (body.slug && body.slug.trim()) || manifestSlug` (line
392); `none` models the TypeError thrown when `body.slug` is a truthy
non-string. -/
def effectiveSlug (slugMember : Option Json) (manifestSlug : String) : Option String :=
  match slugMember with
  | some (.str s) => some (if trimJS s = "" then manifestSlug else trimJS s)
  | some j => if truthy j then none else some manifestSlug
  | none => some manifestSlug

/-- `POST /api/github/refresh` (index.ts lines 333-419): authentication,
body parse (`body = none` models a JSON parse failure), owner/repo
assertions, repo lookup, branch/path defaulting, upstream fetch, validation,
slug/title resolution and the two-step cache write, failing at the first
failing step. -/
def refreshPipeline (user : Option UserRow) (body : Option Json)
    (repos : List RepoRow) (fetch : String → FetchOutcome) :
    RefreshResp × List RefreshEffect :=
  match user with
  | none => (.unauthorized, [])
  | some _ =>
    match body with
    | none => (.badRequest "Body must be JSON", [])
    | some b =>
      match assertStringJson (getMember b "owner") "owner" with
      | .error e => (.badRequest e, [])
      | .ok owner =>
        match assertStringJson (getMember b "repo") "repo" with
        | .error e => (.badRequest e, [])
        | .ok repo =>
          match repos.find? (fun r => r.githubOwner == owner && r.githubRepo == repo) with
          | none => (.repoNotRegistered, [.repoLookup owner repo])
          | some repoRow =>
            let branch := if repoRow.branch = "" then "main" else repoRow.branch
            let manifestPath :=
              if repoRow.manifestPath = "" then "comicyore/manifest.json"
              else repoRow.manifestPath
            let rawUrl := mkRawUrl owner repo branch manifestPath
            match fetch rawUrl with
            | .notOk st =>
              (.fetchFailed st rawUrl, [.repoLookup owner repo, .manifestFetch rawUrl])
            | .okNotJson =>
              (.manifestNotJson rawUrl, [.repoLookup owner repo, .manifestFetch rawUrl])
            | .okJson manifest =>
              match validateManifest manifest with
              | .error msg =>
                (.validationFailed ("Manifest validation failed: " ++ msg),
                 [.repoLookup owner repo, .manifestFetch rawUrl])
              | .ok _ =>
                let title := handlerManifestTitle manifest
                match effectiveSlug (getMember b "slug") (handlerManifestSlug manifest) with
                | none => (.exception, [.repoLookup owner repo, .manifestFetch rawUrl])
                | some slug =>
                  (.success owner repo branch manifestPath rawUrl slug title,
                   [.repoLookup owner repo, .manifestFetch rawUrl,
                    .comicsInsert (mkComicId repoRow.id slug) repoRow.id slug title manifest,
                    .comicsUpdate repoRow.id slug title manifest])

/-! ## Helper lemmas -/

theorem natOrEqZero (a b : Nat) : a ||| b = 0 ↔ a = 0 ∧ b = 0 := by
  constructor
  · intro h
    constructor
    · apply Nat.eq_of_testBit_eq
      intro i
      have hb := congrArg (fun x => Nat.testBit x i) h
      simp only [Nat.testBit_or, Nat.zero_testBit, Bool.or_eq_false_iff] at hb
      simp [hb.1]
    · apply Nat.eq_of_testBit_eq
      intro i
      have hb := congrArg (fun x => Nat.testBit x i) h
      simp only [Nat.testBit_or, Nat.zero_testBit, Bool.or_eq_false_iff] at hb
      simp [hb.2]
  · rintro ⟨rfl, rfl⟩
    rfl

theorem foldlXorZero (l : List (Char × Char)) (acc : Nat) :
    (l.foldl (fun out p => out ||| (p.1.toNat ^^^ p.2.toNat)) acc = 0) ↔
      (acc = 0 ∧ ∀ p ∈ l, p.1 = p.2) := by
  induction l generalizing acc with
  | nil => simp
  | cons hd tl ih =>
    simp only [List.foldl_cons, ih, natOrEqZero, Nat.xor_eq_zero, List.mem_cons]
    constructor
    · rintro ⟨⟨h0, hx⟩, hrest⟩
      refine ⟨h0, ?_⟩
      intro p hp
      rcases hp with rfl | hp
      · exact Char.ext (UInt32.toNat.inj hx)
      · exact hrest p hp
    · rintro ⟨h0, hall⟩
      exact ⟨⟨h0, by rw [hall hd (Or.inl rfl)]⟩, fun p hp => hall p (Or.inr hp)⟩

theorem zipPointwiseEq (xs ys : List Char) (hlen : xs.length = ys.length) :
    (∀ p ∈ xs.zip ys, p.1 = p.2) ↔ xs = ys := by
  induction xs generalizing ys with
  | nil =>
    cases ys with
    | nil => simp
    | cons y yt => simp at hlen
  | cons x xt ih =>
    cases ys with
    | nil => simp at hlen
    | cons y yt =>
      have hlen' : xt.length = yt.length := by simpa using hlen
      simp only [List.zip_cons_cons, List.mem_cons, List.cons.injEq]
      rw [← ih yt hlen']
      constructor
      · intro h
        exact ⟨h (x, y) (Or.inl rfl), fun p hp => h p (Or.inr hp)⟩
      · rintro ⟨h1, h2⟩ p hp
        rcases hp with rfl | hp
        · exact h1
        · exact h2 p hp

theorem timingSafeEqualHexIff (a b : String) : timingSafeEqualHex a b = true ↔ a = b := by
  unfold timingSafeEqualHex
  by_cases h : a.length = b.length
  · rw [if_neg (by simp [h])]
    rw [beq_iff_eq, foldlXorZero]
    have hlen : a.data.length = b.data.length := h
    rw [zipPointwiseEq a.data b.data hlen]
    constructor
    · rintro ⟨-, hd⟩
      cases a
      cases b
      simp_all
    · rintro rfl
      exact ⟨rfl, rfl⟩
  · rw [if_pos h]
    constructor
    · intro hft
      exact absurd hft (by simp)
    · intro heq
      exact absurd (congrArg String.length heq) h

/-- C9: `timingSafeEqualHex` returns true exactly on equal strings; the
fixed-length XOR-accumulation loop gives the same verdict as plain string
equality. -/
theorem timingSafeEqualHex_correct (a b : String) :
    (timingSafeEqualHex a b = true ↔ a = b) ∧
      timingSafeEqualHex a b = decide (a = b) := by
  refine ⟨timingSafeEqualHexIff a b, ?_⟩
  by_cases h : a = b
  · subst h
    simp [(timingSafeEqualHexIff a a).mpr rfl]
  · have hne : timingSafeEqualHex a b ≠ true :=
      fun ht => h ((timingSafeEqualHexIff a b).mp ht)
    simp [h, Bool.eq_false_iff.mpr hne]

theorem schemaVersionOkFalse (j : Option Json) :
    schemaVersionOk j = false ↔ j ≠ some (.num 1) := by
  cases j with
  | none => simp [schemaVersionOk]
  | some v => cases v <;> simp [schemaVersionOk]

/-- C5: every structured (non-null object) JSON value whose `schemaVersion`
member is missing or is not exactly the number `1` fails validation with the
message naming the version field. -/
theorem validateManifest_rejects_bad_schemaVersion (fields : List (String × Json))
    (h : getMember (Json.obj fields) "schemaVersion" ≠ some (.num 1)) :
    validateManifest (Json.obj fields) = .error "schemaVersion must be 1" := by
  unfold validateManifest
  rw [(schemaVersionOkFalse _).mpr h]
  rfl

/-- Witness for C5: a manifest whose `schemaVersion` is the string `"1"`
(not the number) is rejected naming the version field; so is one missing
the member. -/
theorem validateManifest_rejects_bad_schemaVersion_witness :
    validateManifest (Json.obj [("schemaVersion", .str "1")]) =
        .error "schemaVersion must be 1" ∧
      validateManifest (Json.obj [("title", .str "t")]) =
        .error "schemaVersion must be 1" :=
  ⟨validateManifest_rejects_bad_schemaVersion [("schemaVersion", .str "1")]
      (by simp [getMember, lookupField]),
    validateManifest_rejects_bad_schemaVersion [("title", .str "t")]
      (by simp [getMember, lookupField])⟩

/-- C10: the reader route's page-number computation yields 1 both when the
`page` query parameter is absent and when it parses to an integer below 1;
the value handed to `pickPage` is clamped to at least 1. -/
theorem readerPageNumber_clamps_low :
    (readerPageNumber none = some 1) ∧
      (∀ s k, parseIntJS s = some k → k < 1 → readerPageNumber (some s) = some 1) := by
  constructor
  · rfl
  · intro s k hp hk
    have hs : s ≠ "" := by
      intro h
      subst h
      simp [parseIntJS, parseIntSigned, parseIntDigits] at hp
    simp only [readerPageNumber, if_neg hs]
    rw [hp]
    show some (max 1 k) = some 1
    have hmax : max 1 k = 1 := by omega
    rw [hmax]

/-- Witness for C10: `page=0` and `page=-3` both resolve to page 1, as does
an absent parameter. -/
theorem readerPageNumber_clamps_low_witness :
    readerPageNumber (some "0") = some 1 ∧ readerPageNumber (some "-3") = some 1 :=
  ⟨readerPageNumber_clamps_low.2 "0" 0 rfl (by decide),
    readerPageNumber_clamps_low.2 "-3" (-3) rfl (by decide)⟩

/-- C4: `pickPage` selection order — the first page whose explicit numeric
`pageNumber` equals the request wins; otherwise the element at position
`pageNumber - 1` when it exists; otherwise (or with no pages array at all)
the result is not found. -/
theorem pickPage_selection (n : Int) :
    (∀ m ps p, truthy m = true → getMember m "pages" = some (.arr ps) →
        ps.find? (pageNumberMatches n) = some p → pickPage m n = some p) ∧
      (∀ m ps p, truthy m = true → getMember m "pages" = some (.arr ps) →
        ps.find? (pageNumberMatches n) = none → 1 ≤ n →
        ps.get? (n - 1).toNat = some p → p ≠ .null → pickPage m n = some p) ∧
      (∀ m ps, truthy m = true → getMember m "pages" = some (.arr ps) →
        ps.find? (pageNumberMatches n) = none → 1 ≤ n →
        ps.get? (n - 1).toNat = none → pickPage m n = none) ∧
      (∀ m, (∀ ps, getMember m "pages" ≠ some (.arr ps)) → pickPage m n = none) := by
  refine ⟨?_, ?_, ?_, ?_⟩
  · intro m ps p hm hp hfind
    simp only [pickPage, hm, hp, hfind, Bool.not_true, Bool.false_eq_true, if_false]
  · intro m ps p hm hp hfind hn hget hnull
    simp only [pickPage, hm, hp, hfind, Bool.not_true, Bool.false_eq_true, if_false,
      if_pos hn, hget]
    cases p with
    | null => exact absurd rfl hnull
    | bool b => rfl
    | num k => rfl
    | str s => rfl
    | arr xs => rfl
    | obj fs => rfl
  · intro m ps hm hp hfind hn hget
    simp only [pickPage, hm, hp, hfind, Bool.not_true, Bool.false_eq_true, if_false,
      if_pos hn, hget]
  · intro m hnp
    by_cases hm : truthy m
    · simp only [pickPage, hm, Bool.not_true, Bool.false_eq_true, if_false]
    · simp only [pickPage, Bool.not_eq_true] at hm ⊢
      rw [hm]
      rfl

/-- Witness for C4, the spec's concrete manifest: page 5 resolves to the
explicitly numbered page `a`, page 2 positionally to page `b`, and page 3 is
not found. -/
theorem pickPage_selection_witness :
    pickPage (Json.obj [("pages", Json.arr
        [Json.obj [("id", Json.str "a"), ("alt", Json.str "A"),
            ("image", Json.obj [("r2Key", Json.str "k1")]), ("pageNumber", Json.num 5)],
         Json.obj [("id", Json.str "b"), ("alt", Json.str "B"),
            ("image", Json.obj [("r2Key", Json.str "k2")])]])]) 5 =
      some (Json.obj [("id", Json.str "a"), ("alt", Json.str "A"),
        ("image", Json.obj [("r2Key", Json.str "k1")]), ("pageNumber", Json.num 5)]) ∧
    pickPage (Json.obj [("pages", Json.arr
        [Json.obj [("id", Json.str "a"), ("alt", Json.str "A"),
            ("image", Json.obj [("r2Key", Json.str "k1")]), ("pageNumber", Json.num 5)],
         Json.obj [("id", Json.str "b"), ("alt", Json.str "B"),
            ("image", Json.obj [("r2Key", Json.str "k2")])]])]) 2 =
      some (Json.obj [("id", Json.str "b"), ("alt", Json.str "B"),
        ("image", Json.obj [("r2Key", Json.str "k2")])]) ∧
    pickPage (Json.obj [("pages", Json.arr
        [Json.obj [("id", Json.str "a"), ("alt", Json.str "A"),
            ("image", Json.obj [("r2Key", Json.str "k1")]), ("pageNumber", Json.num 5)],
         Json.obj [("id", Json.str "b"), ("alt", Json.str "B"),
            ("image", Json.obj [("r2Key", Json.str "k2")])]])]) 3 = none := by
  refine ⟨?_, ?_, ?_⟩
  · exact (pickPage_selection 5).1 _ _ _ rfl rfl rfl
  · exact (pickPage_selection 2).2.1 _ _ _ rfl rfl rfl (by decide) rfl (by simp)
  · exact (pickPage_selection 3).2.2.1 _ _ rfl rfl rfl (by decide) rfl

theorem validatePage_error_shape (i : Nat) (p : Json) (e : String)
    (h : validatePage i p = .error e) : ∃ r, e = "pages[" ++ r := by
  unfold validatePage at h
  repeat
    first
    | exact ⟨_, (Except.error.inj h).symm⟩
    | (split at h)
    | (cases h)

theorem validatePages_error_shape (ps : List Json) : ∀ (i : Nat) (e : String),
    validatePages i ps = .error e → ∃ r, e = "pages[" ++ r := by
  induction ps with
  | nil =>
    intro i e h
    simp [validatePages] at h
  | cons p rest ih =>
    intro i e h
    simp only [validatePages] at h
    split at h
    · exact validatePage_error_shape i p e (by rw [← h]; assumption)
    · exact ih (i + 1) e h

theorem pagesPrefix_head (r : String) : ("pages[" ++ r).data.head? = some 'p' := by
  cases r
  rfl

theorem pagesPrefix_ne (r t : String) (h0 : t.data.head? ≠ some 'p') :
    "pages[" ++ r ≠ t := by
  intro he
  have h : ("pages[" ++ r).data.head? = t.data.head? :=
    congrArg (fun s => s.data.head?) he
  rw [pagesPrefix_head] at h
  exact h0 h.symm

theorem validateManifest_reduced (m : Json)
    (h1 : truthy m = true) (h2 : typeofObject m = true)
    (h3 : schemaVersionOk (getMember m "schemaVersion") = true) :
    validateManifest m =
      (match resolveTitle m with
       | none => .error "issue.title (or top-level title) required"
       | some _ =>
         match resolveSlug m with
         | none => .error "issue.slug (or top-level slug) required"
         | some _ =>
           match getMember m "pages" with
           | some (.arr ps) => validatePages 0 ps
           | _ => .error "pages must be an array") := by
  simp only [validateManifest, h1, h2, h3, Bool.and_self, Bool.not_true, Bool.false_eq_true,
    if_false]

theorem validateManifest_titleError_iff (m : Json)
    (h1 : truthy m = true) (h2 : typeofObject m = true)
    (h3 : schemaVersionOk (getMember m "schemaVersion") = true) :
    (validateManifest m = .error "issue.title (or top-level title) required" ↔
      resolveTitle m = none) := by
  have hv := validateManifest_reduced m h1 h2 h3
  constructor
  · intro h
    rcases ht : resolveTitle m with _ | t
    · rfl
    · rw [hv, ht] at h
      rcases hs : resolveSlug m with _ | sl
      · rw [hs] at h
        exact absurd (Except.error.inj h) (by decide)
      · rw [hs] at h
        rcases hp : getMember m "pages" with _ | v
        · rw [hp] at h
          exact absurd (Except.error.inj h) (by decide)
        · rw [hp] at h
          cases v with
          | arr ps =>
            obtain ⟨r, hr⟩ := validatePages_error_shape ps 0 _ h
            exact (pagesPrefix_ne r _ (by decide) hr.symm).elim
          | null => exact absurd (Except.error.inj h) (by decide)
          | bool b => exact absurd (Except.error.inj h) (by decide)
          | num k => exact absurd (Except.error.inj h) (by decide)
          | str s => exact absurd (Except.error.inj h) (by decide)
          | obj fs => exact absurd (Except.error.inj h) (by decide)
  · intro h
    rw [hv, h]

theorem validateManifest_slugError_iff (m : Json)
    (h1 : truthy m = true) (h2 : typeofObject m = true)
    (h3 : schemaVersionOk (getMember m "schemaVersion") = true)
    (hnt : resolveTitle m ≠ none) :
    (validateManifest m = .error "issue.slug (or top-level slug) required" ↔
      resolveSlug m = none) := by
  have hv := validateManifest_reduced m h1 h2 h3
  obtain ⟨t, ht⟩ := Option.ne_none_iff_exists'.mp hnt
  constructor
  · intro h
    rw [hv, ht] at h
    rcases hs : resolveSlug m with _ | sl
    · rfl
    · rw [hs] at h
      rcases hp : getMember m "pages" with _ | v
      · rw [hp] at h
        exact absurd (Except.error.inj h) (by decide)
      · rw [hp] at h
        cases v with
        | arr ps =>
          obtain ⟨r, hr⟩ := validatePages_error_shape ps 0 _ h
          exact (pagesPrefix_ne r _ (by decide) hr.symm).elim
        | null => exact absurd (Except.error.inj h) (by decide)
        | bool b => exact absurd (Except.error.inj h) (by decide)
        | num k => exact absurd (Except.error.inj h) (by decide)
        | str s => exact absurd (Except.error.inj h) (by decide)
        | obj fs => exact absurd (Except.error.inj h) (by decide)
  · intro h
    rw [hv, ht, h]

theorem resolveTitle_issue_wins (m : Json) (s : String)
    (hmem : (getMember m "issue").bind (fun i => getMember i "title") = some (.str s))
    (hne : trimJS s ≠ "") : resolveTitle m = some (trimJS s) := by
  simp [resolveTitle, hmem, truthyTrimmedString, hne]

theorem resolveTitle_legacy_fallback (m : Json) (s : String)
    (hA : truthyTrimmedString ((getMember m "issue").bind (fun i => getMember i "title")) = none)
    (hmem : getMember m "title" = some (.str s))
    (hne : trimJS s ≠ "") : resolveTitle m = some (trimJS s) := by
  unfold resolveTitle
  rw [hA]
  simp [truthyTrimmedString, hmem, hne]

theorem resolveSlug_issue_wins (m : Json) (s : String)
    (hmem : (getMember m "issue").bind (fun i => getMember i "slug") = some (.str s))
    (hne : trimJS s ≠ "") : resolveSlug m = some (trimJS s) := by
  simp [resolveSlug, hmem, truthyTrimmedString, hne]

theorem resolveSlug_legacy_fallback (m : Json) (s : String)
    (hA : truthyTrimmedString ((getMember m "issue").bind (fun i => getMember i "slug")) = none)
    (hmem : getMember m "slug" = some (.str s))
    (hne : trimJS s ≠ "") : resolveSlug m = some (trimJS s) := by
  unfold resolveSlug
  rw [hA]
  simp [truthyTrimmedString, hmem, hne]

/-- C6: for manifests passing the object and schemaVersion checks, the
validator fails naming the title field exactly when neither `issue.title`
nor the legacy top-level `title` trims to a non-empty string; once the title
resolves, it fails naming the slug field exactly when the slug resolves the
same way to nothing; and the nested `issue.title`/`issue.slug` win over the
legacy top-level fields whenever they are well-formed non-empty strings
(trimmed of surrounding whitespace in every case). -/
theorem validateManifest_title_slug_resolution (m : Json)
    (h1 : truthy m = true) (h2 : typeofObject m = true)
    (h3 : schemaVersionOk (getMember m "schemaVersion") = true) :
    (validateManifest m = .error "issue.title (or top-level title) required" ↔
        resolveTitle m = none) ∧
      (resolveTitle m ≠ none →
        (validateManifest m = .error "issue.slug (or top-level slug) required" ↔
          resolveSlug m = none)) ∧
      (∀ s, (getMember m "issue").bind (fun i => getMember i "title") = some (.str s) →
        trimJS s ≠ "" → resolveTitle m = some (trimJS s)) ∧
      (∀ s, truthyTrimmedString
          ((getMember m "issue").bind (fun i => getMember i "title")) = none →
        getMember m "title" = some (.str s) → trimJS s ≠ "" →
        resolveTitle m = some (trimJS s)) ∧
      (∀ s, (getMember m "issue").bind (fun i => getMember i "slug") = some (.str s) →
        trimJS s ≠ "" → resolveSlug m = some (trimJS s)) ∧
      (∀ s, truthyTrimmedString
          ((getMember m "issue").bind (fun i => getMember i "slug")) = none →
        getMember m "slug" = some (.str s) → trimJS s ≠ "" →
        resolveSlug m = some (trimJS s)) :=
  ⟨validateManifest_titleError_iff m h1 h2 h3,
    validateManifest_slugError_iff m h1 h2 h3,
    fun s hmem hne => resolveTitle_issue_wins m s hmem hne,
    fun s hA hmem hne => resolveTitle_legacy_fallback m s hA hmem hne,
    fun s hmem hne => resolveSlug_issue_wins m s hmem hne,
    fun s hA hmem hne => resolveSlug_legacy_fallback m s hA hmem hne⟩

/-- Witness for C6: with both nested and legacy fields present the nested
values win (trimmed), and a manifest with neither fails naming the title
field. -/
theorem validateManifest_title_slug_resolution_witness :
    resolveTitle (Json.obj [("schemaVersion", Json.num 1),
        ("issue", Json.obj [("title", Json.str " Nested T "), ("slug", Json.str " nest-slug ")]),
        ("title", Json.str "Legacy"), ("slug", Json.str "leg")]) = some "Nested T" ∧
      resolveSlug (Json.obj [("schemaVersion", Json.num 1),
        ("issue", Json.obj [("title", Json.str " Nested T "), ("slug", Json.str " nest-slug ")]),
        ("title", Json.str "Legacy"), ("slug", Json.str "leg")]) = some "nest-slug" ∧
      validateManifest (Json.obj [("schemaVersion", Json.num 1)]) =
        .error "issue.title (or top-level title) required" :=
  ⟨((validateManifest_title_slug_resolution
        (Json.obj [("schemaVersion", Json.num 1),
          ("issue", Json.obj [("title", Json.str " Nested T "), ("slug", Json.str " nest-slug ")]),
          ("title", Json.str "Legacy"), ("slug", Json.str "leg")])
        rfl rfl rfl).2.2.1 " Nested T " rfl (by decide)).trans rfl,
    ((validateManifest_title_slug_resolution
        (Json.obj [("schemaVersion", Json.num 1),
          ("issue", Json.obj [("title", Json.str " Nested T "), ("slug", Json.str " nest-slug ")]),
          ("title", Json.str "Legacy"), ("slug", Json.str "leg")])
        rfl rfl rfl).2.2.2.2.1 " nest-slug " rfl (by decide)).trans rfl,
    (validateManifest_title_slug_resolution
        (Json.obj [("schemaVersion", Json.num 1)]) rfl rfl rfl).1.mpr rfl⟩

/-- C3: the session check treats a session id whose stored expiry is not
strictly in the future exactly like an id with no stored row: both yield the
anonymous result, and a user is authenticated only when a row with that id
exists whose expiry is strictly in the future. -/
theorem requireUser_expired_eq_absent (sessions : List SessionRow) (users : List UserRow)
    (now sid : String) :
    ((∀ s ∈ sessions, s.id = sid → sqliteTextLt now s.expiresAt = false) →
      requireUser sessions users now (some sid) = none ∧
      requireUser sessions users now (some sid) =
        requireUser (sessions.filter (fun s => !(s.id == sid))) users now (some sid)) ∧
    (∀ u, requireUser sessions users now (some sid) = some u →
      ∃ s ∈ sessions, s.id = sid ∧ sqliteTextLt now s.expiresAt = true ∧
        u ∈ users ∧ u.id = s.userId) := by
  constructor
  · intro hexp
    have hnil : sessions.filterMap (fun s =>
        if s.id == sid && sqliteTextLt now s.expiresAt then
          users.find? (fun u => u.id == s.userId)
        else none) = [] := by
      rw [List.filterMap_eq_nil_iff]
      intro s hs
      rw [if_neg]
      simp only [Bool.and_eq_true, beq_iff_eq, not_and]
      intro hid
      rw [hexp s hs hid]
      simp
    have hnil2 : (sessions.filter (fun s => !(s.id == sid))).filterMap (fun s =>
        if s.id == sid && sqliteTextLt now s.expiresAt then
          users.find? (fun u => u.id == s.userId)
        else none) = [] := by
      rw [List.filterMap_eq_nil_iff]
      intro s hs
      have hmem := List.of_mem_filter hs
      rw [if_neg]
      simp only [Bool.not_eq_true', beq_eq_false_iff_ne, ne_eq] at hmem
      simp only [Bool.and_eq_true, beq_iff_eq, not_and]
      intro hid
      exact absurd hid hmem
    constructor
    · simp only [requireUser, sessionLookup, hnil, List.head?_nil]
    · simp only [requireUser, sessionLookup, hnil, hnil2, List.head?_nil]
  · intro u hu
    simp only [requireUser, sessionLookup] at hu
    have hmem : u ∈ sessions.filterMap (fun s =>
        if s.id == sid && sqliteTextLt now s.expiresAt then
          users.find? (fun v => v.id == s.userId)
        else none) := by
      rcases hl : sessions.filterMap (fun s =>
          if s.id == sid && sqliteTextLt now s.expiresAt then
            users.find? (fun v => v.id == s.userId)
          else none) with _ | ⟨a, rest⟩
      · rw [hl] at hu
        cases hu
      · rw [hl] at hu
        simp only [List.head?_cons, Option.some.injEq] at hu
        rw [hl, hu]
        exact List.mem_cons_self u rest
    rw [List.mem_filterMap] at hmem
    obtain ⟨s, hs, hf⟩ := hmem
    by_cases hcond : (s.id == sid && sqliteTextLt now s.expiresAt) = true
    · rw [if_pos hcond] at hf
      simp only [Bool.and_eq_true, beq_iff_eq] at hcond
      refine ⟨s, hs, hcond.1, hcond.2, ?_, ?_⟩
      · exact List.mem_of_find?_eq_some hf
      · have := List.find?_some hf
        simpa using this
    · rw [if_neg hcond] at hf
      cases hf

/-- Witness for C3: an expired session yields anonymous, identically to the
table with that session row removed. -/
theorem requireUser_expired_eq_absent_witness :
    requireUser [⟨"sid1", "u1", "2020-01-01T00:00:00Z"⟩] [⟨"u1", "alice"⟩]
        "2024-01-01T00:00:00Z" (some "sid1") = none ∧
      requireUser [⟨"sid1", "u1", "2020-01-01T00:00:00Z"⟩] [⟨"u1", "alice"⟩]
        "2024-01-01T00:00:00Z" (some "sid1") =
        requireUser (([⟨"sid1", "u1", "2020-01-01T00:00:00Z"⟩] : List SessionRow).filter
            (fun s => !(s.id == "sid1"))) [⟨"u1", "alice"⟩]
          "2024-01-01T00:00:00Z" (some "sid1") :=
  (requireUser_expired_eq_absent [⟨"sid1", "u1", "2020-01-01T00:00:00Z"⟩] [⟨"u1", "alice"⟩]
    "2024-01-01T00:00:00Z" "sid1").1 (by decide)

theorem comicKey_fresh (r s ti ma no : String) :
    comicKey r s (freshComicRow r s ti ma no) = true := by
  simp [comicKey, freshComicRow]

theorem updateComics_key_pres (r s ti ma no : String) (x : ComicRow) :
    comicKey r s (if comicKey r s x then
      { x with title := ti, cachedManifestJson := ma, cachedAt := no, updatedAt := no }
    else x) = comicKey r s x := by
  by_cases h : comicKey r s x = true
  · simp only [h, if_true]
    simp only [comicKey] at h ⊢
    exact h
  · simp only [Bool.not_eq_true] at h
    simp [h]

theorem filter_updateComics (t : List ComicRow) (r s ti ma no : String) :
    (updateComics t r s ti ma no).filter (comicKey r s) =
      (t.filter (comicKey r s)).map (fun x =>
        if comicKey r s x then
          { x with title := ti, cachedManifestJson := ma, cachedAt := no, updatedAt := no }
        else x) := by
  unfold updateComics
  rw [List.filter_map]
  congr 1
  apply List.filter_congr
  intro x _
  simp only [Function.comp_apply]
  exact updateComics_key_pres r s ti ma no x

theorem insertOrIgnoreComics_fresh (t : List ComicRow) (r s ti ma no : String) :
    insertOrIgnoreComics t (freshComicRow r s ti ma no) =
      if t.any (fun x => x.id == mkComicId r s || comicKey r s x) then t
      else t ++ [freshComicRow r s ti ma no] := rfl

theorem cacheUpsert_step (t : List ComicRow) (r s ti ma no : String)
    (Hid : ∀ x ∈ t, x.id = mkComicId r s → (x.repoId = r ∧ x.slug = s))
    (Huniq : (t.filter (comicKey r s)).length ≤ 1) :
    ((cacheUpsert t r s ti ma no).filter (comicKey r s)).length = 1 ∧
      (∀ x ∈ cacheUpsert t r s ti ma no, comicKey r s x = true →
        x.title = ti ∧ x.cachedManifestJson = ma) ∧
      (∀ x ∈ cacheUpsert t r s ti ma no, x.id = mkComicId r s →
        (x.repoId = r ∧ x.slug = s)) := by
  have hval : ∀ u ∈ cacheUpsert t r s ti ma no, comicKey r s u = true →
      u.title = ti ∧ u.cachedManifestJson = ma := by
    intro u hu hku
    unfold cacheUpsert updateComics at hu
    obtain ⟨y, hy, hgy⟩ := List.mem_map.mp hu
    have hky : comicKey r s y = true := by
      rw [← updateComics_key_pres r s ti ma no y, hgy]
      exact hku
    rw [← hgy, if_pos hky]
    exact ⟨rfl, rfl⟩
  by_cases hA : t.any (fun x => x.id == mkComicId r s || comicKey r s x) = true
  · have hcu : cacheUpsert t r s ti ma no = updateComics t r s ti ma no := by
      unfold cacheUpsert
      rw [insertOrIgnoreComics_fresh, if_pos hA]
    obtain ⟨x0, hx0, hcond⟩ := List.any_eq_true.mp hA
    have hkey0 : comicKey r s x0 = true := by
      rcases Bool.or_eq_true_iff.mp hcond with hid | hk
      · obtain ⟨h1, h2⟩ := Hid x0 hx0 (beq_iff_eq.mp hid)
        simp [comicKey, h1, h2]
      · exact hk
    have hmemf : x0 ∈ t.filter (comicKey r s) := List.mem_filter.mpr ⟨hx0, hkey0⟩
    have hlen : (t.filter (comicKey r s)).length = 1 :=
      Nat.le_antisymm Huniq (List.length_pos.mpr (List.ne_nil_of_mem hmemf))
    refine ⟨?_, hval, ?_⟩
    · rw [hcu, filter_updateComics, List.length_map, hlen]
    · intro x hx hidx
      rw [hcu] at hx
      unfold updateComics at hx
      obtain ⟨y, hy, hgy⟩ := List.mem_map.mp hx
      have hidy : x.id = y.id := by
        rw [← hgy]
        by_cases hky : comicKey r s y = true
        · rw [if_pos hky]
        · rw [if_neg hky]
      have hy' := Hid y hy (hidy ▸ hidx)
      by_cases hky : comicKey r s y = true
      · rw [← hgy, if_pos hky]
        exact hy'
      · rw [← hgy, if_neg hky]
        exact hy'
  · have hall : ∀ x ∈ t, (x.id == mkComicId r s || comicKey r s x) = false := by
      intro x hx
      rcases hc : (x.id == mkComicId r s || comicKey r s x) with _ | _
      · rfl
      · exact absurd (List.any_eq_true.mpr ⟨x, hx, hc⟩) hA
    have hkeyF : ∀ x ∈ t, comicKey r s x = false := fun x hx =>
      (Bool.or_eq_false_iff.mp (hall x hx)).2
    have hidF : ∀ x ∈ t, x.id ≠ mkComicId r s := fun x hx =>
      beq_eq_false_iff_ne.mp (Bool.or_eq_false_iff.mp (hall x hx)).1
    have hcu : cacheUpsert t r s ti ma no =
        updateComics (t ++ [freshComicRow r s ti ma no]) r s ti ma no := by
      unfold cacheUpsert
      rw [insertOrIgnoreComics_fresh, if_neg hA]
    have hfilterT : t.filter (comicKey r s) = [] :=
      List.filter_eq_nil_iff.mpr (fun x hx => by rw [hkeyF x hx]; exact Bool.false_ne_true)
    have hfilter : (t ++ [freshComicRow r s ti ma no]).filter (comicKey r s) =
        [freshComicRow r s ti ma no] := by
      rw [List.filter_append, hfilterT]
      simp [comicKey_fresh]
    refine ⟨?_, hval, ?_⟩
    · rw [hcu, filter_updateComics, hfilter]
      rfl
    · intro x hx hidx
      rw [hcu] at hx
      unfold updateComics at hx
      obtain ⟨y, hy, hgy⟩ := List.mem_map.mp hx
      have hrepo : x.repoId = y.repoId ∧ x.slug = y.slug := by
        rw [← hgy]
        by_cases hky : comicKey r s y = true
        · rw [if_pos hky]
          exact ⟨rfl, rfl⟩
        · rw [if_neg hky]
          exact ⟨rfl, rfl⟩
      rcases List.mem_append.mp hy with hyt | hynr
      · have hidy : x.id = y.id := by
          rw [← hgy]
          by_cases hky : comicKey r s y = true
          · rw [if_pos hky]
          · rw [if_neg hky]
        exact hrepo.1 ▸ hrepo.2 ▸ Hid y hyt (hidy ▸ hidx)
      · have hynr' : y = freshComicRow r s ti ma no := by
          simpa using hynr
        rw [hynr'] at hrepo
        exact ⟨hrepo.1, hrepo.2⟩

theorem cacheUpsert_latest_wins_aux (r s : String) :
    ∀ (calls : List (String × String × String)) (last : String × String × String),
    calls.getLast? = some last →
    ∀ (t : List ComicRow),
    (∀ x ∈ t, x.id = mkComicId r s → (x.repoId = r ∧ x.slug = s)) →
    (t.filter (comicKey r s)).length ≤ 1 →
    (((calls.foldl (fun acc c => cacheUpsert acc r s c.1 c.2.1 c.2.2) t).filter
        (comicKey r s)).length = 1 ∧
      ∀ x ∈ calls.foldl (fun acc c => cacheUpsert acc r s c.1 c.2.1 c.2.2) t,
        comicKey r s x = true →
          x.title = last.1 ∧ x.cachedManifestJson = last.2.1) := by
  intro calls
  induction calls with
  | nil =>
    intro last h
    cases h
  | cons c rest ih =>
    intro last hlast t Hid Huniq
    have step := cacheUpsert_step t r s c.1 c.2.1 c.2.2 Hid Huniq
    cases rest with
    | nil =>
      have hc : last = c := by
        simpa [List.getLast?] using hlast.symm
      subst hc
      simp only [List.foldl_cons, List.foldl_nil]
      exact ⟨step.1, fun x hx hk => step.2.1 x hx hk⟩
    | cons c' rest' =>
      have hlast' : (c' :: rest').getLast? = some last := by
        rw [← hlast, List.getLast?_cons_cons]
      simp only [List.foldl_cons]
      exact ih last hlast' (cacheUpsert t r s c.1 c.2.1 c.2.2) step.2.2 (le_of_eq step.1)

/-- C1: starting from any comics table obeying the schema's uniqueness
constraints (at most one row per `(repo_id, slug)`, and the deterministic id
of this key not hijacked by a row of a different key), any non-empty
sequence of cache upserts with the same `(repositoryId, slug)` leaves
exactly one row for that key, whose title and cached manifest are the
arguments of the latest call. -/
theorem cacheUpsert_latest_wins (r s : String) (calls : List (String × String × String))
    (hne : calls ≠ []) (t : List ComicRow)
    (Hid : ∀ x ∈ t, x.id = mkComicId r s → (x.repoId = r ∧ x.slug = s))
    (Huniq : (t.filter (comicKey r s)).length ≤ 1) :
    ((calls.foldl (fun acc c => cacheUpsert acc r s c.1 c.2.1 c.2.2) t).filter
        (comicKey r s)).length = 1 ∧
      ∀ x ∈ calls.foldl (fun acc c => cacheUpsert acc r s c.1 c.2.1 c.2.2) t,
        comicKey r s x = true →
          x.title = (calls.getLast hne).1 ∧
          x.cachedManifestJson = (calls.getLast hne).2.1 :=
  cacheUpsert_latest_wins_aux r s calls (calls.getLast hne)
    (List.getLast?_eq_getLast calls hne) t Hid Huniq

/-- Witness for C1, the spec's concrete instance: two upserts with
identical key `("r1", "s1")` but different titles, from an empty table,
leave exactly one row for the key whose title and manifest are the second
call's. -/
theorem cacheUpsert_latest_wins_witness :
    ((([("Title A", "manifest1", "now1"), ("Title B", "manifest2", "now2")] :
          List (String × String × String)).foldl
        (fun acc c => cacheUpsert acc "r1" "s1" c.1 c.2.1 c.2.2) []).filter
      (comicKey "r1" "s1")).length = 1 ∧
    ∀ x ∈ ([("Title A", "manifest1", "now1"), ("Title B", "manifest2", "now2")] :
          List (String × String × String)).foldl
        (fun acc c => cacheUpsert acc "r1" "s1" c.1 c.2.1 c.2.2) [],
      comicKey "r1" "s1" x = true →
        x.title = "Title B" ∧ x.cachedManifestJson = "manifest2" :=
  cacheUpsert_latest_wins "r1" "s1"
    [("Title A", "manifest1", "now1"), ("Title B", "manifest2", "now2")] (by simp) []
    (by simp) (by simp)

/-- C2 counterexample: the claim as stated is false.  At a callback whose
state cookie is `"x.y"` — payload `"x"`, signature `"y"`, the signature
unequal to the keyed hash of the payload — the handler throws from
`b64json` (the payload is not decodable), so the request is not answered
with the 400 invalid-state response. -/
theorem signatureMismatchAlways400_false : ¬ signatureMismatchAlways400 := by
  intro h
  have h2 := h (fun _ => "") (fun _ => none) (fun _ => "") "c" "t" "x" "y"
    (by decide) (by decide) (by decide) (by decide) (by decide) (by decide) (by decide)
  have hev : callbackVerify (fun _ => "") (fun _ => none) (fun _ => "") "c" "t"
      (some ("x" ++ "." ++ "y")) = .exception := rfl
  rw [hev] at h2
  exact CallbackOutcome.noConfusion h2

/-- C2 amended: provided the cookie payload decodes (base64-encoded JSON)
and re-serializes to itself — true of every cookie minted by the start
phase — a signature unequal to the keyed hash of the payload (including
length mismatches and single-character alterations) is answered with the
400 invalid-state response and the handler never reaches the token
exchange, user upsert or session creation. -/
theorem callback_sig_mismatch_rejected (hmac : String → String)
    (parseB64 : String → Option Json) (stringify : Json → String)
    (code stateQ p s : String) (pl : Json)
    (hcode : code ≠ "") (hstate : stateQ ≠ "")
    (hget0 : (jsSplitDot (p ++ "." ++ s)).get? 0 = some p)
    (hget1 : (jsSplitDot (p ++ "." ++ s)).get? 1 = some s)
    (hpne : p ≠ "") (hsne : s ≠ "")
    (hparse : parseB64 p = some pl) (hround : stringify pl = p)
    (hmismatch : s ≠ hmac p) :
    callbackVerify hmac parseB64 stringify code stateQ (some (p ++ "." ++ s)) =
      .response 400 "Invalid state" ∧
    callbackReachesExchange (callbackVerify hmac parseB64 stringify code stateQ
      (some (p ++ "." ++ s))) = false := by
  have hcne : p ++ "." ++ s ≠ "" := by
    intro hc
    have hl := congrArg String.length hc
    rw [String.length_append, String.length_append] at hl
    have h1 : ("." : String).length = 1 := rfl
    have h2 : ("" : String).length = 0 := rfl
    omega
  have htse : timingSafeEqualHex s (hmac (stringify pl)) = false := by
    rw [hround]
    exact Bool.eq_false_iff.mpr (fun ht => hmismatch ((timingSafeEqualHexIff s (hmac p)).mp ht))
  have hres : callbackVerify hmac parseB64 stringify code stateQ (some (p ++ "." ++ s)) =
      .response 400 "Invalid state" := by
    simp only [callbackVerify, hcode, hstate, hcne, hget0, hget1, hpne, hsne, hparse,
      htse, Option.getD_some, decide_False, Bool.or_self, Bool.false_eq_true, if_false,
      Bool.not_false, if_true]
  exact ⟨hres, by rw [hres]; rfl⟩

/-- Witness for the amended C2: a concrete mismatching cookie is rejected
with 400 Invalid state and does not reach the exchange. -/
theorem callback_sig_mismatch_rejected_witness :
    callbackVerify (fun x => "H" ++ x) (fun x => some (.str x))
        (fun j => match j with | .str t => t | _ => "") "c" "t" (some ("x" ++ "." ++ "y")) =
      .response 400 "Invalid state" ∧
    callbackReachesExchange (callbackVerify (fun x => "H" ++ x) (fun x => some (.str x))
        (fun j => match j with | .str t => t | _ => "") "c" "t"
        (some ("x" ++ "." ++ "y"))) = false :=
  callback_sig_mismatch_rejected (fun x => "H" ++ x) (fun x => some (.str x))
    (fun j => match j with | .str t => t | _ => "") "c" "t" "x" "y" (.str "x")
    (by decide) (by decide) rfl rfl (by decide) (by decide) rfl rfl (by decide)

/-- C7: the refresh pipeline fails at the first failing step with its
stated classification and performs no later step — an anonymous caller gets
401 before any database or upstream access; an unregistered (owner, repo)
pair gets 404 with only the repo lookup performed, before any upstream
fetch; a non-success fetch or a non-JSON body gets 502 with no cache write
(validation is never reached, there is no manifest); an invalid manifest
gets 422 carrying the validator's message, with no cache write. -/
theorem refreshPipeline_fails_fast (repos : List RepoRow) (fetch : String → FetchOutcome) :
    (∀ body, (refreshPipeline none body repos fetch).1 = .unauthorized ∧
      refreshStatus (refreshPipeline none body repos fetch).1 = 401 ∧
      (refreshPipeline none body repos fetch).2 = []) ∧
    (∀ u b owner repo,
      assertStringJson (getMember b "owner") "owner" = .ok owner →
      assertStringJson (getMember b "repo") "repo" = .ok repo →
      repos.find? (fun r => r.githubOwner == owner && r.githubRepo == repo) = none →
      (refreshPipeline (some u) (some b) repos fetch).1 = .repoNotRegistered ∧
        refreshStatus (refreshPipeline (some u) (some b) repos fetch).1 = 404 ∧
        (refreshPipeline (some u) (some b) repos fetch).2 = [.repoLookup owner repo]) ∧
    (∀ u b owner repo row,
      assertStringJson (getMember b "owner") "owner" = .ok owner →
      assertStringJson (getMember b "repo") "repo" = .ok repo →
      repos.find? (fun r => r.githubOwner == owner && r.githubRepo == repo) = some row →
      ∀ url, url = mkRawUrl owner repo (if row.branch = "" then "main" else row.branch)
          (if row.manifestPath = "" then "comicyore/manifest.json" else row.manifestPath) →
      ((∀ st, fetch url = .notOk st →
        (refreshPipeline (some u) (some b) repos fetch).1 = .fetchFailed st url ∧
          refreshStatus (refreshPipeline (some u) (some b) repos fetch).1 = 502 ∧
          (refreshPipeline (some u) (some b) repos fetch).2 =
            [.repoLookup owner repo, .manifestFetch url]) ∧
      (fetch url = .okNotJson →
        (refreshPipeline (some u) (some b) repos fetch).1 = .manifestNotJson url ∧
          refreshStatus (refreshPipeline (some u) (some b) repos fetch).1 = 502 ∧
          (refreshPipeline (some u) (some b) repos fetch).2 =
            [.repoLookup owner repo, .manifestFetch url]) ∧
      (∀ j msg, fetch url = .okJson j → validateManifest j = .error msg →
        (refreshPipeline (some u) (some b) repos fetch).1 =
            .validationFailed ("Manifest validation failed: " ++ msg) ∧
          refreshStatus (refreshPipeline (some u) (some b) repos fetch).1 = 422 ∧
          (refreshPipeline (some u) (some b) repos fetch).2 =
            [.repoLookup owner repo, .manifestFetch url]))) := by
  refine ⟨?_, ?_, ?_⟩
  · intro body
    exact ⟨rfl, rfl, rfl⟩
  · intro u b owner repo hOwner hRepo hFind
    have h : refreshPipeline (some u) (some b) repos fetch =
        (.repoNotRegistered, [.repoLookup owner repo]) := by
      simp only [refreshPipeline, hOwner, hRepo, hFind]
    rw [h]
    exact ⟨rfl, rfl, rfl⟩
  · intro u b owner repo row hOwner hRepo hFind url hurl
    subst hurl
    refine ⟨?_, ?_, ?_⟩
    · intro st hFetch
      have h : refreshPipeline (some u) (some b) repos fetch =
          (.fetchFailed st (mkRawUrl owner repo (if row.branch = "" then "main" else row.branch)
            (if row.manifestPath = "" then "comicyore/manifest.json" else row.manifestPath)),
           [.repoLookup owner repo, .manifestFetch (mkRawUrl owner repo
            (if row.branch = "" then "main" else row.branch)
            (if row.manifestPath = "" then "comicyore/manifest.json" else row.manifestPath))]) := by
        simp only [refreshPipeline, hOwner, hRepo, hFind, hFetch]
      rw [h]
      exact ⟨rfl, rfl, rfl⟩
    · intro hFetch
      have h : refreshPipeline (some u) (some b) repos fetch =
          (.manifestNotJson (mkRawUrl owner repo (if row.branch = "" then "main" else row.branch)
            (if row.manifestPath = "" then "comicyore/manifest.json" else row.manifestPath)),
           [.repoLookup owner repo, .manifestFetch (mkRawUrl owner repo
            (if row.branch = "" then "main" else row.branch)
            (if row.manifestPath = "" then "comicyore/manifest.json" else row.manifestPath))]) := by
        simp only [refreshPipeline, hOwner, hRepo, hFind, hFetch]
      rw [h]
      exact ⟨rfl, rfl, rfl⟩
    · intro j msg hFetch hValid
      have h : refreshPipeline (some u) (some b) repos fetch =
          (.validationFailed ("Manifest validation failed: " ++ msg),
           [.repoLookup owner repo, .manifestFetch (mkRawUrl owner repo
            (if row.branch = "" then "main" else row.branch)
            (if row.manifestPath = "" then "comicyore/manifest.json" else row.manifestPath))]) := by
        simp only [refreshPipeline, hOwner, hRepo, hFind, hFetch, hValid]
      rw [h]
      exact ⟨rfl, rfl, rfl⟩

/-- C8: on a successful refresh the effective cached slug is the body's
slug override trimmed when it is a string with non-empty trim, and
otherwise the slug resolved from the manifest (issue-then-legacy
precedence); the 200 response echoes the resolved owner, repo, defaulted
branch and manifest path, source URL, and exactly the slug and title
written by the cache insert and update. -/
theorem refreshPipeline_success_echo (u : UserRow) (b : Json) (repos : List RepoRow)
    (fetch : String → FetchOutcome) (owner repo : String) (row : RepoRow) (j : Json)
    (slugEff : String)
    (hOwner : assertStringJson (getMember b "owner") "owner" = .ok owner)
    (hRepo : assertStringJson (getMember b "repo") "repo" = .ok repo)
    (hFind : repos.find? (fun r => r.githubOwner == owner && r.githubRepo == repo) = some row)
    (hFetch : fetch (mkRawUrl owner repo (if row.branch = "" then "main" else row.branch)
      (if row.manifestPath = "" then "comicyore/manifest.json" else row.manifestPath)) =
      .okJson j)
    (hValid : validateManifest j = .ok ())
    (hSlug : effectiveSlug (getMember b "slug") (handlerManifestSlug j) = some slugEff) :
    refreshPipeline (some u) (some b) repos fetch =
      (.success owner repo (if row.branch = "" then "main" else row.branch)
        (if row.manifestPath = "" then "comicyore/manifest.json" else row.manifestPath)
        (mkRawUrl owner repo (if row.branch = "" then "main" else row.branch)
          (if row.manifestPath = "" then "comicyore/manifest.json" else row.manifestPath))
        slugEff (handlerManifestTitle j),
       [.repoLookup owner repo,
        .manifestFetch (mkRawUrl owner repo (if row.branch = "" then "main" else row.branch)
          (if row.manifestPath = "" then "comicyore/manifest.json" else row.manifestPath)),
        .comicsInsert (mkComicId row.id slugEff) row.id slugEff (handlerManifestTitle j) j,
        .comicsUpdate row.id slugEff (handlerManifestTitle j) j]) ∧
      (∀ s, getMember b "slug" = some (.str s) → trimJS s ≠ "" → slugEff = trimJS s) ∧
      (getMember b "slug" = none → slugEff = handlerManifestSlug j) ∧
      refreshStatus (refreshPipeline (some u) (some b) repos fetch).1 = 200 := by
  have h : refreshPipeline (some u) (some b) repos fetch =
      (.success owner repo (if row.branch = "" then "main" else row.branch)
        (if row.manifestPath = "" then "comicyore/manifest.json" else row.manifestPath)
        (mkRawUrl owner repo (if row.branch = "" then "main" else row.branch)
          (if row.manifestPath = "" then "comicyore/manifest.json" else row.manifestPath))
        slugEff (handlerManifestTitle j),
       [.repoLookup owner repo,
        .manifestFetch (mkRawUrl owner repo (if row.branch = "" then "main" else row.branch)
          (if row.manifestPath = "" then "comicyore/manifest.json" else row.manifestPath)),
        .comicsInsert (mkComicId row.id slugEff) row.id slugEff (handlerManifestTitle j) j,
        .comicsUpdate row.id slugEff (handlerManifestTitle j) j]) := by
    simp only [refreshPipeline, hOwner, hRepo, hFind, hFetch, hValid, hSlug]
  refine ⟨h, ?_, ?_, ?_⟩
  · intro s hs hne
    rw [hs] at hSlug
    simp only [effectiveSlug, if_neg hne, Option.some.injEq] at hSlug
    exact hSlug.symm
  · intro hn
    rw [hn] at hSlug
    simp only [effectiveSlug, Option.some.injEq] at hSlug
    exact hSlug.symm
  · rw [h]
    rfl

/-- Witness for C8: a concrete successful refresh with a slug override
`" ov "` caches slug `"ov"` and title `"Issue One"` and echoes them. -/
theorem refreshPipeline_success_echo_witness :
    refreshPipeline (some ⟨"user_1", "alice"⟩)
        (some (Json.obj [("owner", Json.str "acme"), ("repo", Json.str "comic1"),
          ("slug", Json.str " ov ")]))
        [⟨"repo1", "user_1", "acme", "comic1", "main", "m.json"⟩]
        (fun _ => .okJson (Json.obj [("schemaVersion", Json.num 1),
          ("issue", Json.obj [("title", Json.str "Issue One"), ("slug", Json.str "issue-1")]),
          ("pages", Json.arr [])])) =
      (.success "acme" "comic1" "main" "m.json"
        "https://raw.githubusercontent.com/acme/comic1/main/m.json" "ov" "Issue One",
       [.repoLookup "acme" "comic1",
        .manifestFetch "https://raw.githubusercontent.com/acme/comic1/main/m.json",
        .comicsInsert "comic_repo1_ov" "repo1" "ov" "Issue One"
          (Json.obj [("schemaVersion", Json.num 1),
            ("issue", Json.obj [("title", Json.str "Issue One"), ("slug", Json.str "issue-1")]),
            ("pages", Json.arr [])]),
        .comicsUpdate "repo1" "ov" "Issue One"
          (Json.obj [("schemaVersion", Json.num 1),
            ("issue", Json.obj [("title", Json.str "Issue One"), ("slug", Json.str "issue-1")]),
            ("pages", Json.arr [])])]) :=
  (refreshPipeline_success_echo ⟨"user_1", "alice"⟩
    (Json.obj [("owner", Json.str "acme"), ("repo", Json.str "comic1"),
      ("slug", Json.str " ov ")])
    [⟨"repo1", "user_1", "acme", "comic1", "main", "m.json"⟩]
    (fun _ => .okJson (Json.obj [("schemaVersion", Json.num 1),
      ("issue", Json.obj [("title", Json.str "Issue One"), ("slug", Json.str "issue-1")]),
      ("pages", Json.arr [])]))
    "acme" "comic1" ⟨"repo1", "user_1", "acme", "comic1", "main", "m.json"⟩
    (Json.obj [("schemaVersion", Json.num 1),
      ("issue", Json.obj [("title", Json.str "Issue One"), ("slug", Json.str "issue-1")]),
      ("pages", Json.arr [])])
    "ov" rfl rfl rfl rfl rfl rfl).1

/-- Witness for C7: concrete requests failing at each stage. -/
theorem refreshPipeline_fails_fast_witness :
    (refreshPipeline none
        (some (Json.obj [("owner", Json.str "acme"), ("repo", Json.str "comic1")]))
        [] (fun _ => .okNotJson)).1 = .unauthorized ∧
    (refreshPipeline (some ⟨"user_1", "alice"⟩)
        (some (Json.obj [("owner", Json.str "acme"), ("repo", Json.str "comic1")]))
        [] (fun _ => .okNotJson)).1 = .repoNotRegistered ∧
    (refreshPipeline (some ⟨"user_1", "alice"⟩)
        (some (Json.obj [("owner", Json.str "acme"), ("repo", Json.str "comic1")]))
        [] (fun _ => .okNotJson)).2 = [.repoLookup "acme" "comic1"] ∧
    (refreshPipeline (some ⟨"user_1", "alice"⟩)
        (some (Json.obj [("owner", Json.str "acme"), ("repo", Json.str "comic1")]))
        [⟨"repo1", "user_1", "acme", "comic1", "main", "m.json"⟩]
        (fun _ => .notOk 500)).1 =
      .fetchFailed 500 "https://raw.githubusercontent.com/acme/comic1/main/m.json" ∧
    (refreshPipeline (some ⟨"user_1", "alice"⟩)
        (some (Json.obj [("owner", Json.str "acme"), ("repo", Json.str "comic1")]))
        [⟨"repo1", "user_1", "acme", "comic1", "main", "m.json"⟩]
        (fun _ => .okJson (Json.obj [("schemaVersion", Json.str "1")]))).1 =
      .validationFailed "Manifest validation failed: schemaVersion must be 1" :=
  ⟨((refreshPipeline_fails_fast [] (fun _ => .okNotJson)).1
      (some (Json.obj [("owner", Json.str "acme"), ("repo", Json.str "comic1")]))).1,
    ((refreshPipeline_fails_fast [] (fun _ => .okNotJson)).2.1 ⟨"user_1", "alice"⟩
      (Json.obj [("owner", Json.str "acme"), ("repo", Json.str "comic1")])
      "acme" "comic1" rfl rfl rfl).1,
    ((refreshPipeline_fails_fast [] (fun _ => .okNotJson)).2.1 ⟨"user_1", "alice"⟩
      (Json.obj [("owner", Json.str "acme"), ("repo", Json.str "comic1")])
      "acme" "comic1" rfl rfl rfl).2.2,
    (((refreshPipeline_fails_fast [⟨"repo1", "user_1", "acme", "comic1", "main", "m.json"⟩]
        (fun _ => .notOk 500)).2.2 ⟨"user_1", "alice"⟩
      (Json.obj [("owner", Json.str "acme"), ("repo", Json.str "comic1")])
      "acme" "comic1" ⟨"repo1", "user_1", "acme", "comic1", "main", "m.json"⟩ rfl rfl rfl
      "https://raw.githubusercontent.com/acme/comic1/main/m.json" rfl).1 500 rfl).1,
    (((refreshPipeline_fails_fast [⟨"repo1", "user_1", "acme", "comic1", "main", "m.json"⟩]
        (fun _ => .okJson (Json.obj [("schemaVersion", Json.str "1")]))).2.2
      ⟨"user_1", "alice"⟩
      (Json.obj [("owner", Json.str "acme"), ("repo", Json.str "comic1")])
      "acme" "comic1" ⟨"repo1", "user_1", "acme", "comic1", "main", "m.json"⟩ rfl rfl rfl
      "https://raw.githubusercontent.com/acme/comic1/main/m.json" rfl).2.2
      (Json.obj [("schemaVersion", Json.str "1")]) "schemaVersion must be 1" rfl rfl).1⟩
